import Mathlib

/-!
# Block Whacker — core game-state engine, shallow embedding

This file embeds the core engine of the Block Whacker web game
(`web/js/classes/Game.js`, `web/js/classes/Block.js`,
`web/js/utils/gameLogic.js`, `web/js/utils/constants.js`) in Lean 4 and
proves/refutes the specification claims about it.

Modelling notes:
* The grid is a `List (List Nat)`; cell value `0` is empty, nonzero values
  are color indices, exactly as in the JS code.  Reachable grids are 8×8
  (`GAME_CONFIG.GRID_SIZE = 8`); theorems that need this carry a `WFGrid`
  hypothesis.
* JS `Block` objects are mutable and held by reference (the undo snapshot
  stores a *reference* to the placed block).  We model the object store as
  a `heap : List Block`; references are indices into it.
  `generateNewBlocks` allocates three fresh blocks at the end of the heap.
* Randomness (`new Block()` sampling a shape and a color) is resolved by
  passing the freshly generated blocks as an explicit argument to
  `placeBlock`.
* Out-of-range list reads use `getD` with the value an in-range read of a
  well-formed 8×8 state can never distinguish; all theorems about grid
  contents either hold unconditionally or assume `WFGrid`.
-/

namespace BlockWhacker

/-- `GAME_CONFIG.GRID_SIZE` from `constants.js`. -/
def GRID_SIZE : Nat := 8

/-- `SCORING.BASE_SCORE` from `constants.js`. -/
def BASE_SCORE : Nat := 100

/-- `SCORING.MULTIPLIERS[linesCleared] || SCORING.MULTIPLIERS.default`
from `constants.js`: `{1:1, 2:3, 3:6, 4:10, default:15}`. -/
def multiplier (n : Nat) : Nat :=
  match n with
  | 1 => 1
  | 2 => 3
  | 3 => 6
  | 4 => 10
  | _ => 15

/-- The grid: `N` rows of `N` cells, `0` = empty (`this.grid`). -/
abbrev Grid := List (List Nat)

/-- A block (`Block.js`): a 0/1 shape mask, a color index, a used flag. -/
structure Block where
  shape : List (List Bool)
  colorIndex : Nat
  used : Bool
  deriving Repr, DecidableEq

/-- An anchor position on the grid (`{x, y}` objects in the JS code).
Coordinates are integers: callers may propose out-of-range anchors. -/
structure Pos where
  x : Int
  y : Int
  deriving Repr, DecidableEq

/-- Read `grid[y][x]`, with `0` (empty) for out-of-range reads, which a
well-formed access never performs. -/
def cell (g : Grid) (y x : Nat) : Nat := (g.getD y []).getD x 0

/-- Write `grid[y][x] = v` (no-op out of range, which a well-formed
access never performs). -/
def setCell (g : Grid) (y x v : Nat) : Grid :=
  g.set y ((g.getD y []).set x v)

/-- The grid is the 8×8 matrix the engine actually maintains:
8 rows, each of length 8. -/
def WFGrid (g : Grid) : Prop :=
  g.length = GRID_SIZE ∧ ∀ y < GRID_SIZE, (g.getD y []).length = GRID_SIZE

instance : DecidablePred WFGrid := fun g => by
  unfold WFGrid; infer_instance

/-- `canPlaceBlockAt(grid, block, pos)` from `gameLogic.js` (the same
loop as `Game.canPlaceBlock`): every occupied shape cell must map to an
in-range empty grid cell. -/
def canPlaceBlockAt (g : Grid) (shape : List (List Bool)) (p : Pos) : Bool :=
  (List.range shape.length).all fun dy =>
    (List.range (shape.getD dy []).length).all fun dx =>
      if (shape.getD dy []).getD dx false then
        let gx : Int := p.x + dx
        let gy : Int := p.y + dy
        decide (0 ≤ gx) && decide (gx < GRID_SIZE) &&
        decide (0 ≤ gy) && decide (gy < GRID_SIZE) &&
        (cell g gy.toNat gx.toNat == 0)
      else true

/-- `hasAnyValidMoves(grid, availableBlocks)` from `gameLogic.js`:
`true` if every block is used (the set will be replenished), otherwise
scan every unused block over all anchors. -/
def hasAnyValidMoves (g : Grid) (availableBlocks : List Block) : Bool :=
  let activeBlocks := availableBlocks.filter fun b => !b.used
  if activeBlocks.isEmpty then
    true
  else
    activeBlocks.any fun b =>
      (List.range GRID_SIZE).any fun y =>
        (List.range GRID_SIZE).any fun x =>
          canPlaceBlockAt g b.shape ⟨x, y⟩

/-- The rows detected as full in `checkAndClearLines`
(`this.grid[y].every(cell => cell !== 0)`). -/
def fullRows (g : Grid) : List Nat :=
  (List.range GRID_SIZE).filter fun y => (g.getD y []).all fun c => c != 0

/-- The columns detected as full in `checkAndClearLines`
(`this.grid.every(row => row[x] !== 0)`). -/
def fullCols (g : Grid) : List Nat :=
  (List.range GRID_SIZE).filter fun x => g.all fun row => row.getD x 0 != 0

/-- `clearedRows.forEach(y => this.grid[y].fill(0))` for one row. -/
def clearRow (g : Grid) (y : Nat) : Grid :=
  g.set y ((g.getD y []).map fun _ => 0)

/-- `clearedCols.forEach(x => this.grid.forEach(row => row[x] = 0))`
for one column. -/
def clearCol (g : Grid) (x : Nat) : Grid :=
  g.map fun row => row.set x 0

/-- `checkAndClearLines`: detect all full rows and columns on the current
grid, then clear them; returns the cleared grid and the number of lines
detected. -/
def checkAndClearLines (g : Grid) : Grid × Nat :=
  let clearedRows := fullRows g
  let clearedCols := fullCols g
  let linesCleared := clearedRows.length + clearedCols.length
  let g1 := clearedRows.foldl clearRow g
  let g2 := clearedCols.foldl clearCol g1
  (g2, linesCleared)

/-- Placing the shape cells into the grid: the double `forEach` in
`placeBlock` that writes `this.grid[y][x] = this.draggedBlock.colorIndex`
for every occupied cell whose absolute position is in range. -/
def writeShape (g : Grid) (shape : List (List Bool)) (p : Pos) (color : Nat) : Grid :=
  (List.range shape.length).foldl
    (fun g1 dy =>
      (List.range (shape.getD dy []).length).foldl
        (fun g2 dx =>
          if (shape.getD dy []).getD dx false then
            let x : Int := p.x + dx
            let y : Int := p.y + dy
            if 0 ≤ x ∧ x < GRID_SIZE ∧ 0 ≤ y ∧ y < GRID_SIZE then
              setCell g2 y.toNat x.toNat color
            else g2
          else g2)
        g1)
    g

/-- The undo snapshot captured at the start of a successful `placeBlock`
(`this.lastPlacement`).  `blockRef` models the JS object reference
`lastPlacement.block` as a heap index. -/
structure Snapshot where
  grid : Grid
  blockRef : Nat
  blockIndex : Int
  position : Pos
  score : Nat
  linesCleared : Nat
  deriving Repr, DecidableEq

/-- The engine state: the fields of `BlockWhackerGame` that the core
engine reads or writes (rendering/input fields are omitted).
`heap` is the block object store; `availableBlocks` and `draggedBlock`
hold references (heap indices). -/
structure EngineState where
  grid : Grid
  heap : List Block
  availableBlocks : List Nat
  draggedBlock : Option Nat
  selectedBlockIndex : Int
  cursorPos : Pos
  score : Nat
  level : Nat
  linesCleared : Nat
  gameOver : Bool
  lastPlacement : Option Snapshot
  canUndo : Bool
  deriving Repr, DecidableEq

/-- Dereferencing an invalid block reference; `used := true` makes a
phantom reference inert, matching the fact that the JS engine never holds
a dangling reference. -/
def defaultBlock : Block := { shape := [], colorIndex := 0, used := true }

/-- Dereference a block (heap read). -/
def getBlock (heap : List Block) (r : Nat) : Block := heap.getD r defaultBlock

/-- The body of a successful `placeBlock()` (the spec's
`commitPlacement`), for the validated dragged block `r`:

1. save the undo snapshot, set `canUndo`;
2. write the shape cells, mark the block used, clear the selection;
3. `checkAndClearLines` (score and `linesCleared` update inside it);
4. if every available block is now used, replace the set with the
   freshly sampled `newBlocks` (`generateNewBlocks()`);
5. `checkGameOver`: set `gameOver` if `hasAnyValidMoves` fails. -/
def commitPlacement (s : EngineState) (r : Nat) (newBlocks : List Block) : EngineState :=
  let b := getBlock s.heap r
  let snap : Snapshot :=
    { grid := s.grid, blockRef := r, blockIndex := s.selectedBlockIndex,
      position := s.cursorPos, score := s.score, linesCleared := s.linesCleared }
  let g1 := writeShape s.grid b.shape s.cursorPos b.colorIndex
  let heap1 := s.heap.set r { b with used := true }
  let res := checkAndClearLines g1
  let n := res.2
  let score1 := if n > 0 then s.score + BASE_SCORE * multiplier n * s.level else s.score
  let lines1 := if n > 0 then s.linesCleared + n else s.linesCleared
  let allUsed := s.availableBlocks.all fun i => (getBlock heap1 i).used
  let heap2 := if allUsed then heap1 ++ newBlocks else heap1
  let avail2 :=
    if allUsed then (List.range newBlocks.length).map (fun i => heap1.length + i)
    else s.availableBlocks
  let gameOver2 :=
    if hasAnyValidMoves res.1 (avail2.map fun i => getBlock heap2 i) then s.gameOver
    else true
  { s with grid := res.1, heap := heap2, availableBlocks := avail2,
           selectedBlockIndex := -1,
           score := score1, linesCleared := lines1,
           gameOver := gameOver2,
           lastPlacement := some snap, canUndo := true }

/-- `placeBlock()` from `Game.js`, with the dragged block and cursor
position taken from the state and the blocks a triggered
`generateNewBlocks()` would sample passed in as `newBlocks`: return
unless a dragged block exists, is unused, and `canPlaceBlock` succeeds
at the cursor position; otherwise run `commitPlacement`. -/
def placeBlock (s : EngineState) (newBlocks : List Block) : EngineState :=
  match s.draggedBlock with
  | none => s
  | some r =>
    let b := getBlock s.heap r
    if b.used then s
    else if canPlaceBlockAt s.grid b.shape s.cursorPos then
      commitPlacement s r newBlocks
    else s

/-- `undo()` from `Game.js`: no-op unless `canUndo` and a snapshot exist;
otherwise restore the snapshot grid, flip the placed block's `used` flag
back to `false` (through its reference), restore score and
`linesCleared`, and consume the undo availability.  `lastPlacement`
itself is kept; `gameOver` and `level` are not touched. -/
def undo (s : EngineState) : EngineState :=
  if s.canUndo then
    match s.lastPlacement with
    | none => s
    | some snap =>
      { s with grid := snap.grid,
               heap := s.heap.set snap.blockRef
                 { getBlock s.heap snap.blockRef with used := false },
               score := snap.score,
               linesCleared := snap.linesCleared,
               canUndo := false }
  else s

/-- The all-empty 8×8 grid (`Array(8).fill().map(() => Array(8).fill(0))`). -/
def emptyGrid : Grid := List.replicate GRID_SIZE (List.replicate GRID_SIZE 0)

/-! ## Pointwise characterisation of the clearing operations -/

lemma getD_map_zero (l : List Nat) (x : Nat) :
    (l.map fun _ => (0 : Nat)).getD x 0 = 0 := by
  rw [List.getD_eq_getElem?_getD, List.getElem?_map]
  cases l[x]? <;> rfl

lemma getD_set_zero (row : List Nat) (x0 x : Nat) :
    (row.set x0 0).getD x 0 = if x = x0 then 0 else row.getD x 0 := by
  rw [List.getD_eq_getElem?_getD, List.getElem?_set]
  by_cases h : x0 = x
  · subst h
    rw [if_pos rfl, if_pos rfl]
    by_cases hl : x0 < row.length
    · rw [if_pos hl]
      rfl
    · rw [if_neg hl]
      rfl
  · rw [if_neg h, if_neg (fun hc => h hc.symm), List.getD_eq_getElem?_getD]

lemma getD_row_set (g : Grid) (y0 y : Nat) (m : List Nat) :
    (g.set y0 m).getD y [] = if y = y0 ∧ y0 < g.length then m else g.getD y [] := by
  rw [List.getD_eq_getElem?_getD, List.getElem?_set]
  by_cases h : y0 = y
  · subst h
    by_cases hl : y0 < g.length
    · rw [if_pos rfl, if_pos hl, if_pos ⟨rfl, hl⟩]
      rfl
    · rw [if_pos rfl, if_neg hl, if_neg (fun hc => hl hc.2)]
      have : g[y0]? = none := List.getElem?_eq_none (Nat.le_of_not_lt hl)
      rw [List.getD_eq_getElem?_getD, this]
  · rw [if_neg h, if_neg (fun hc => h hc.1.symm), List.getD_eq_getElem?_getD]

lemma getD_row_clearCol (g : Grid) (x0 y : Nat) :
    (clearCol g x0).getD y [] = (g.getD y []).set x0 0 := by
  unfold clearCol
  rw [List.getD_eq_getElem?_getD, List.getElem?_map]
  cases hg : g[y]? with
  | none =>
    rw [List.getD_eq_getElem?_getD, hg]
    rfl
  | some row =>
    rw [List.getD_eq_getElem?_getD, hg]
    rfl

lemma cell_clearRow (g : Grid) (y0 y x : Nat) :
    cell (clearRow g y0) y x = if y = y0 then 0 else cell g y x := by
  unfold cell clearRow
  rw [getD_row_set]
  by_cases h : y = y0 ∧ y0 < g.length
  · rw [if_pos h, if_pos h.1, getD_map_zero]
  · rw [if_neg h]
    by_cases hy : y = y0
    · rw [if_pos hy]
      subst hy
      have hl : ¬ y < g.length := fun hl => h ⟨rfl, hl⟩
      have hn : g[y]? = none := List.getElem?_eq_none (Nat.le_of_not_lt hl)
      have hrow : g.getD y [] = [] := by
        rw [List.getD_eq_getElem?_getD, hn]
        rfl
      rw [hrow]
      rfl
    · rw [if_neg hy]

lemma cell_clearCol (g : Grid) (x0 y x : Nat) :
    cell (clearCol g x0) y x = if x = x0 then 0 else cell g y x := by
  unfold cell
  rw [getD_row_clearCol, getD_set_zero]

lemma cell_foldl_clearRow (rows : List Nat) (g : Grid) (y x : Nat) :
    cell (rows.foldl clearRow g) y x = if y ∈ rows then 0 else cell g y x := by
  induction rows generalizing g with
  | nil => simp
  | cons r rs ih =>
    rw [List.foldl_cons, ih, cell_clearRow]
    by_cases h1 : y ∈ rs
    · simp [h1]
    · by_cases h2 : y = r <;> simp [h1, h2]

lemma cell_foldl_clearCol (cols : List Nat) (g : Grid) (y x : Nat) :
    cell (cols.foldl clearCol g) y x = if x ∈ cols then 0 else cell g y x := by
  induction cols generalizing g with
  | nil => simp
  | cons c cs ih =>
    rw [List.foldl_cons, ih, cell_clearCol]
    by_cases h1 : x ∈ cs
    · simp [h1]
    · by_cases h2 : x = c <;> simp [h1, h2]

/-- The grid produced by `checkAndClearLines`, pointwise: a cell is zeroed
iff its row or column was detected full, and is untouched otherwise. -/
lemma cell_checkAndClearLines (g : Grid) (y x : Nat) :
    cell (checkAndClearLines g).1 y x =
      if x ∈ fullCols g then 0 else if y ∈ fullRows g then 0 else cell g y x := by
  unfold checkAndClearLines
  simp only
  rw [cell_foldl_clearCol, cell_foldl_clearRow]

/-! ## Shape preservation: the engine operations keep the grid 8×8 -/

lemma foldl_inv {α β : Type} {P : β → Prop} {f : β → α → β}
    (h : ∀ b a, P b → P (f b a)) :
    ∀ (l : List α) (b : β), P b → P (l.foldl f b) := by
  intro l
  induction l with
  | nil => intro b hb; exact hb
  | cons a l ih => intro b hb; exact ih _ (h b a hb)

/-- Grid dimensions, for stating that operations preserve them. -/
def sameDims (g g' : Grid) : Prop :=
  g'.length = g.length ∧ ∀ y, (g'.getD y []).length = (g.getD y []).length

lemma sameDims_refl (g : Grid) : sameDims g g := ⟨rfl, fun _ => rfl⟩

lemma sameDims_trans {g1 g2 g3 : Grid} (h1 : sameDims g1 g2) (h2 : sameDims g2 g3) :
    sameDims g1 g3 :=
  ⟨h2.1.trans h1.1, fun y => (h2.2 y).trans (h1.2 y)⟩

lemma sameDims_clearRow (g : Grid) (y0 : Nat) : sameDims g (clearRow g y0) := by
  refine ⟨List.length_set .., fun y => ?_⟩
  unfold clearRow
  rw [getD_row_set]
  by_cases h : y = y0 ∧ y0 < g.length
  · rw [if_pos h, List.length_map, h.1]
  · rw [if_neg h]

lemma sameDims_clearCol (g : Grid) (x0 : Nat) : sameDims g (clearCol g x0) := by
  refine ⟨List.length_map .., fun y => ?_⟩
  rw [getD_row_clearCol, List.length_set]

lemma sameDims_setCell (g : Grid) (y x v : Nat) : sameDims g (setCell g y x v) := by
  refine ⟨List.length_set .., fun y' => ?_⟩
  unfold setCell
  rw [getD_row_set]
  by_cases h : y' = y ∧ y < g.length
  · rw [if_pos h, List.length_set, h.1]
  · rw [if_neg h]

lemma sameDims_checkAndClearLines (g : Grid) : sameDims g (checkAndClearLines g).1 := by
  unfold checkAndClearLines
  simp only
  have h1 : sameDims g ((fullRows g).foldl clearRow g) :=
    foldl_inv (fun g' y0 hg' => sameDims_trans hg' (sameDims_clearRow g' y0)) _ g
      (sameDims_refl g)
  exact sameDims_trans h1
    (foldl_inv (fun g' x0 hg' => sameDims_trans hg' (sameDims_clearCol g' x0)) _ _
      (sameDims_refl _))

lemma sameDims_writeShape (g : Grid) (shape : List (List Bool)) (p : Pos) (c : Nat) :
    sameDims g (writeShape g shape p c) := by
  unfold writeShape
  refine foldl_inv (fun g1 dy hg1 => ?_) _ g (sameDims_refl g)
  refine foldl_inv (fun g2 dx hg2 => ?_) _ g1 hg1
  by_cases hc : (shape.getD dy []).getD dx false
  · rw [if_pos hc]
    simp only
    split
    · exact sameDims_trans hg2 (sameDims_setCell g2 _ _ _)
    · exact hg2
  · rw [if_neg hc]
    exact hg2

lemma WFGrid_of_sameDims {g g' : Grid} (h : sameDims g g') (hWF : WFGrid g) :
    WFGrid g' :=
  ⟨h.1.trans hWF.1, fun y hy => (h.2 y).trans (hWF.2 y hy)⟩

/-! ## Characterising the full-line detectors -/

/-- Row `y` is fully occupied (the spec's notion, stated cellwise). -/
def rowFull (g : Grid) (y : Nat) : Prop := ∀ x < GRID_SIZE, cell g y x ≠ 0

/-- Column `x` is fully occupied (the spec's notion, stated cellwise). -/
def colFull (g : Grid) (x : Nat) : Prop := ∀ y < GRID_SIZE, cell g y x ≠ 0

instance (g : Grid) (y : Nat) : Decidable (rowFull g y) := by
  unfold rowFull; infer_instance

instance (g : Grid) (x : Nat) : Decidable (colFull g x) := by
  unfold colFull; infer_instance

lemma getD_eq_getElem_of_lt (g : Grid) {y : Nat} (hy : y < g.length) :
    g.getD y [] = g[y] := by
  rw [List.getD_eq_getElem?_getD, List.getElem?_eq_getElem hy]
  rfl

lemma getD_nat_eq_getElem_of_lt (row : List Nat) {x : Nat} (hx : x < row.length) :
    row.getD x 0 = row[x] := by
  rw [List.getD_eq_getElem?_getD, List.getElem?_eq_getElem hx]
  rfl

lemma all_ne_zero_iff (row : List Nat) :
    ((row.all fun c => c != 0) = true) ↔ ∀ x < row.length, row.getD x 0 ≠ 0 := by
  rw [List.all_eq_true]
  constructor
  · intro h x hx
    rw [getD_nat_eq_getElem_of_lt row hx]
    simpa using h _ (List.getElem_mem hx)
  · intro h c hc
    obtain ⟨i, hi, rfl⟩ := List.mem_iff_getElem.mp hc
    simpa [← getD_nat_eq_getElem_of_lt row hi] using h i hi

lemma mem_fullRows (g : Grid) (hWF : WFGrid g) (y : Nat) :
    y ∈ fullRows g ↔ y < GRID_SIZE ∧ rowFull g y := by
  unfold fullRows
  rw [List.mem_filter, List.mem_range]
  refine and_congr_right fun hy => ?_
  rw [all_ne_zero_iff, hWF.2 y hy]
  rfl

lemma col_all_iff (g : Grid) (hlen : g.length = GRID_SIZE) (x : Nat) :
    ((g.all fun row => row.getD x 0 != 0) = true) ↔ colFull g x := by
  rw [List.all_eq_true]
  constructor
  · intro h y hy
    have hy' : y < g.length := hlen ▸ hy
    unfold cell
    rw [getD_eq_getElem_of_lt g hy']
    simpa using h _ (List.getElem_mem hy')
  · intro h row hrow
    obtain ⟨y, hy, rfl⟩ := List.mem_iff_getElem.mp hrow
    have hc := h y (hlen ▸ hy)
    unfold cell at hc
    rw [getD_eq_getElem_of_lt g hy] at hc
    simpa using hc

lemma mem_fullCols (g : Grid) (hlen : g.length = GRID_SIZE) (x : Nat) :
    x ∈ fullCols g ↔ x < GRID_SIZE ∧ colFull g x := by
  unfold fullCols
  rw [List.mem_filter, List.mem_range]
  exact and_congr_right fun _ => col_all_iff g hlen x

/-! ## Case lemmas for `placeBlock` and `undo` -/

lemma placeBlock_of_none (s : EngineState) (nb : List Block)
    (h1 : s.draggedBlock = none) : placeBlock s nb = s := by
  unfold placeBlock
  rw [h1]

lemma placeBlock_of_used (s : EngineState) (nb : List Block) (r : Nat)
    (h1 : s.draggedBlock = some r) (h2 : (getBlock s.heap r).used = true) :
    placeBlock s nb = s := by
  unfold placeBlock
  rw [h1]
  simp only [h2, if_true]

lemma placeBlock_of_not_canPlace (s : EngineState) (nb : List Block) (r : Nat)
    (h1 : s.draggedBlock = some r) (h2 : (getBlock s.heap r).used = false)
    (h3 : canPlaceBlockAt s.grid (getBlock s.heap r).shape s.cursorPos = false) :
    placeBlock s nb = s := by
  unfold placeBlock
  rw [h1]
  simp only [h2, h3, Bool.false_eq_true, if_false]

lemma placeBlock_of_canPlace (s : EngineState) (nb : List Block) (r : Nat)
    (h1 : s.draggedBlock = some r) (h2 : (getBlock s.heap r).used = false)
    (h3 : canPlaceBlockAt s.grid (getBlock s.heap r).shape s.cursorPos = true) :
    placeBlock s nb = commitPlacement s r nb := by
  unfold placeBlock
  rw [h1]
  simp only [h2, h3, Bool.false_eq_true, if_false, if_true]

lemma commitPlacement_grid (s : EngineState) (r : Nat) (nb : List Block) :
    (commitPlacement s r nb).grid =
      (checkAndClearLines (writeShape s.grid (getBlock s.heap r).shape s.cursorPos
        (getBlock s.heap r).colorIndex)).1 := rfl

lemma commitPlacement_level (s : EngineState) (r : Nat) (nb : List Block) :
    (commitPlacement s r nb).level = s.level := rfl

lemma commitPlacement_score (s : EngineState) (r : Nat) (nb : List Block) :
    (commitPlacement s r nb).score =
      if (checkAndClearLines (writeShape s.grid (getBlock s.heap r).shape s.cursorPos
            (getBlock s.heap r).colorIndex)).2 > 0
      then s.score + BASE_SCORE * multiplier
            (checkAndClearLines (writeShape s.grid (getBlock s.heap r).shape s.cursorPos
              (getBlock s.heap r).colorIndex)).2 * s.level
      else s.score := rfl

lemma commitPlacement_linesCleared (s : EngineState) (r : Nat) (nb : List Block) :
    (commitPlacement s r nb).linesCleared =
      if (checkAndClearLines (writeShape s.grid (getBlock s.heap r).shape s.cursorPos
            (getBlock s.heap r).colorIndex)).2 > 0
      then s.linesCleared +
            (checkAndClearLines (writeShape s.grid (getBlock s.heap r).shape s.cursorPos
              (getBlock s.heap r).colorIndex)).2
      else s.linesCleared := rfl

lemma commitPlacement_lastPlacement (s : EngineState) (r : Nat) (nb : List Block) :
    (commitPlacement s r nb).lastPlacement =
      some { grid := s.grid, blockRef := r, blockIndex := s.selectedBlockIndex,
             position := s.cursorPos, score := s.score,
             linesCleared := s.linesCleared } := rfl

lemma commitPlacement_canUndo (s : EngineState) (r : Nat) (nb : List Block) :
    (commitPlacement s r nb).canUndo = true := rfl

lemma commitPlacement_heap (s : EngineState) (r : Nat) (nb : List Block) :
    (commitPlacement s r nb).heap =
      if s.availableBlocks.all
          (fun i => (getBlock (s.heap.set r { getBlock s.heap r with used := true }) i).used)
      then s.heap.set r { getBlock s.heap r with used := true } ++ nb
      else s.heap.set r { getBlock s.heap r with used := true } := rfl

lemma undo_of_not_canUndo (s : EngineState) (h : s.canUndo = false) : undo s = s := by
  unfold undo
  rw [h]
  simp only [Bool.false_eq_true, if_false]

lemma undo_of_canUndo (s : EngineState) (snap : Snapshot)
    (h1 : s.canUndo = true) (h2 : s.lastPlacement = some snap) :
    undo s = { s with grid := snap.grid,
                      heap := s.heap.set snap.blockRef
                        { getBlock s.heap snap.blockRef with used := false },
                      score := snap.score,
                      linesCleared := snap.linesCleared,
                      canUndo := false } := by
  unfold undo
  rw [h1, h2]
  simp only [if_true]

lemma undo_gameOver (s : EngineState) : (undo s).gameOver = s.gameOver := by
  unfold undo
  by_cases h : s.canUndo = true
  · rw [h]
    simp only [if_true]
    cases s.lastPlacement <;> rfl
  · rw [Bool.not_eq_true] at h
    rw [h]
    simp only [Bool.false_eq_true, if_false]

lemma undo_level (s : EngineState) : (undo s).level = s.level := by
  unfold undo
  by_cases h : s.canUndo = true
  · rw [h]
    simp only [if_true]
    cases s.lastPlacement <;> rfl
  · rw [Bool.not_eq_true] at h
    rw [h]
    simp only [Bool.false_eq_true, if_false]

/-! ## No full line survives `checkAndClearLines` -/

lemma not_rowFull_checkAndClearLines (g : Grid) (hWF : WFGrid g) :
    ∀ y < GRID_SIZE, ¬ rowFull (checkAndClearLines g).1 y := by
  intro y hy hfull
  by_cases hr : rowFull g y
  · have hyR : y ∈ fullRows g := (mem_fullRows g hWF y).mpr ⟨hy, hr⟩
    have h0 := hfull 0 (by norm_num [GRID_SIZE])
    rw [cell_checkAndClearLines] at h0
    by_cases hc : 0 ∈ fullCols g
    · rw [if_pos hc] at h0
      exact h0 rfl
    · rw [if_neg hc, if_pos hyR] at h0
      exact h0 rfl
  · unfold rowFull at hr
    push_neg at hr
    obtain ⟨x, hx, hcell⟩ := hr
    have h0 := hfull x hx
    rw [cell_checkAndClearLines] at h0
    by_cases hc : x ∈ fullCols g
    · rw [if_pos hc] at h0
      exact h0 rfl
    · by_cases hrr : y ∈ fullRows g
      · rw [if_neg hc, if_pos hrr] at h0
        exact h0 rfl
      · rw [if_neg hc, if_neg hrr] at h0
        exact h0 hcell

lemma not_colFull_checkAndClearLines (g : Grid) (hWF : WFGrid g) :
    ∀ x < GRID_SIZE, ¬ colFull (checkAndClearLines g).1 x := by
  intro x hx hfull
  by_cases hc : colFull g x
  · have hxC : x ∈ fullCols g := (mem_fullCols g hWF.1 x).mpr ⟨hx, hc⟩
    have h0 := hfull 0 (by norm_num [GRID_SIZE])
    rw [cell_checkAndClearLines, if_pos hxC] at h0
    exact h0 rfl
  · unfold colFull at hc
    push_neg at hc
    obtain ⟨y, hy, hcell⟩ := hc
    have h0 := hfull y hy
    rw [cell_checkAndClearLines] at h0
    by_cases hcc : x ∈ fullCols g
    · rw [if_pos hcc] at h0
      exact h0 rfl
    · by_cases hrr : y ∈ fullRows g
      · rw [if_neg hcc, if_pos hrr] at h0
        exact h0 rfl
      · rw [if_neg hcc, if_neg hrr] at h0
        exact h0 hcell

/-! ## Heap access lemmas -/

lemma getBlock_set_self (heap : List Block) (r : Nat) (b : Block) (h : r < heap.length) :
    getBlock (heap.set r b) r = b := by
  unfold getBlock
  rw [List.getD_eq_getElem?_getD, List.getElem?_set_self h]
  rfl

lemma getBlock_set_ne (heap : List Block) (r r' : Nat) (b : Block) (h : r ≠ r') :
    getBlock (heap.set r b) r' = getBlock heap r' := by
  unfold getBlock
  rw [List.getD_eq_getElem?_getD, List.getElem?_set_ne h, ← List.getD_eq_getElem?_getD]

lemma getBlock_append_left (heap nb : List Block) (r : Nat) (h : r < heap.length) :
    getBlock (heap ++ nb) r = getBlock heap r := by
  unfold getBlock
  rw [List.getD_eq_getElem?_getD, List.getElem?_append_left h, ← List.getD_eq_getElem?_getD]

/-! ## Concrete blocks, grids and states for counterexamples and witnesses -/

/-- The 1×1 shape from the catalogue in `Block.js`, unused, color 1. -/
def oneBlock : Block := { shape := [[true]], colorIndex := 1, used := false }

/-- The plus shape from the catalogue in `Block.js`, unused, color 2. -/
def plusBlock : Block :=
  { shape := [[false, true, false], [true, true, true], [false, true, false]],
    colorIndex := 2, used := false }

/-- A 1×1 block already consumed by an earlier placement. -/
def usedBlock : Block := { shape := [[true]], colorIndex := 3, used := true }

/-- Row 0 occupied except its last cell, all other rows empty. -/
def almostRowGrid : Grid :=
  [1, 1, 1, 1, 1, 1, 1, 0] :: List.replicate 7 (List.replicate 8 0)

/-- Checkerboard occupancy: cell `(x, y)` holds 1 iff `x + y` is even.
No row or column is full, and no plus-shaped pocket of empties exists. -/
def checkerGrid : Grid :=
  (List.range GRID_SIZE).map fun y =>
    (List.range GRID_SIZE).map fun x => if (x + y) % 2 == 0 then 1 else 0

/-- Row 0 and column 0 fully occupied, the rest empty. -/
def crossGrid : Grid :=
  (List.range GRID_SIZE).map fun y =>
    (List.range GRID_SIZE).map fun x => if x == 0 || y == 0 then 1 else 0

/-- A state whose `gameOver` flag is set while an unused, placeable block
is still dragged (the situation `undo` after a terminal placement leaves
behind, since `undo` restores the grid but not the flag). -/
def sFlagged : EngineState :=
  { grid := emptyGrid, heap := [oneBlock, plusBlock], availableBlocks := [0, 1],
    draggedBlock := some 0, selectedBlockIndex := 0, cursorPos := ⟨0, 0⟩,
    score := 0, level := 1, linesCleared := 0, gameOver := true,
    lastPlacement := none, canUndo := false }

/-- A state about to complete row 0 (and its tenth line overall) by
placing the 1×1 block at `(7, 0)`. -/
def sAlmost : EngineState :=
  { grid := almostRowGrid, heap := [oneBlock, plusBlock, plusBlock],
    availableBlocks := [0, 1, 2],
    draggedBlock := some 0, selectedBlockIndex := 0, cursorPos := ⟨7, 0⟩,
    score := 0, level := 1, linesCleared := 9, gameOver := false,
    lastPlacement := none, canUndo := false }

/-- A state one placement away from game over: the dragged 1×1 block fits
the checkerboard, but afterwards only plus blocks remain unused, and no
plus shape fits a checkerboard. -/
def sChecker : EngineState :=
  { grid := checkerGrid, heap := [oneBlock, plusBlock, plusBlock],
    availableBlocks := [0, 1, 2],
    draggedBlock := some 0, selectedBlockIndex := 0, cursorPos := ⟨1, 0⟩,
    score := 5, level := 1, linesCleared := 3, gameOver := false,
    lastPlacement := none, canUndo := false }

/-- A state whose dragged block has already been used. -/
def sUsed : EngineState :=
  { grid := emptyGrid, heap := [usedBlock], availableBlocks := [0],
    draggedBlock := some 0, selectedBlockIndex := 0, cursorPos := ⟨0, 0⟩,
    score := 0, level := 1, linesCleared := 0, gameOver := false,
    lastPlacement := none, canUndo := false }

/-- A state holding one used and one unused block; placing the unused one
exhausts the set and triggers a refill. -/
def sMixed : EngineState :=
  { grid := emptyGrid, heap := [usedBlock, oneBlock], availableBlocks := [0, 1],
    draggedBlock := some 1, selectedBlockIndex := 1, cursorPos := ⟨0, 0⟩,
    score := 0, level := 1, linesCleared := 0, gameOver := false,
    lastPlacement := none, canUndo := false }

/-! ## Claim C1 -/

/-- C1, counterexample: `placeBlock` never consults `gameOver`.  In a
state with `gameOver = true` but an unused dragged block that fits (the
state an undo after a terminal placement produces), the call is accepted
and mutates the state, so the claimed gameOver-rejection clause is false. -/
theorem c1_gameOver_not_rejected :
    sFlagged.gameOver = true ∧ placeBlock sFlagged [] ≠ sFlagged := by
  decide

/-- C1, amended: `placeBlock` is a rejected no-op — the whole engine
state (grid, score, linesCleared, level, availableBlocks, undo snapshot)
unchanged — whenever there is no dragged block, the dragged block is
already used, or it cannot legally occupy the anchor; the `gameOver`
flag is not consulted. -/
theorem c1_reject_noop (s : EngineState) (nb : List Block)
    (h : s.draggedBlock = none ∨ ∃ r, s.draggedBlock = some r ∧
      ((getBlock s.heap r).used = true ∨
       canPlaceBlockAt s.grid (getBlock s.heap r).shape s.cursorPos = false)) :
    placeBlock s nb = s := by
  rcases h with h1 | ⟨r, h1, h2 | h3⟩
  · exact placeBlock_of_none s nb h1
  · exact placeBlock_of_used s nb r h1 h2
  · by_cases h2 : (getBlock s.heap r).used = true
    · exact placeBlock_of_used s nb r h1 h2
    · have h2' : (getBlock s.heap r).used = false := by
        simpa using h2
      exact placeBlock_of_not_canPlace s nb r h1 h2' h3

/-- C1, witness: the rejection no-op at a concrete state whose dragged
block is already used. -/
theorem c1_reject_noop_witness : placeBlock sUsed [] = sUsed :=
  c1_reject_noop sUsed [] (Or.inr ⟨0, rfl, Or.inl rfl⟩)

/-! ## Claim C2 -/

/-- C2, failing input: in `sAlmost` (level 1, 9 lines cleared so far),
the placement completes a row, bringing `linesCleared` to 10, but
`updateScore` never recomputes `level`: it stays 1, while
`floor(10 / 10) + 1 = 2`.  The engine never updates `level` at all. -/
theorem c2_level_never_updated :
    sAlmost.level = 1 ∧
    (placeBlock sAlmost []).linesCleared = 10 ∧
    (placeBlock sAlmost []).level = 1 ∧
    (placeBlock sAlmost []).linesCleared / 10 + 1 = 2 := by
  decide

/-! ## Claim C5 -/

/-- C5, counterexample: a placement onto `sChecker` sets `gameOver`;
the immediate `undo` restores the grid but leaves `gameOver = true`
(the code's `undo` never touches the flag), contradicting the claim that
it is re-derived as false. -/
theorem c5_gameOver_survives_undo :
    sChecker.gameOver = false ∧
    (placeBlock sChecker []).gameOver = true ∧
    (undo (placeBlock sChecker [])).grid = sChecker.grid ∧
    (undo (placeBlock sChecker [])).score = sChecker.score ∧
    (undo (placeBlock sChecker [])).gameOver = true := by
  decide

/-- C5, amended: `undo` never modifies `gameOver`; after undoing the
placement that set `gameOver = true`, the flag remains true. -/
theorem c5_undo_preserves_gameOver (s : EngineState) :
    (undo s).gameOver = s.gameOver :=
  undo_gameOver s

/-! ## Claim C6 -/

/-- C6, counterexample: `undo` transitions the placed block's `used`
flag from true back to false, refuting the claim that no engine
operation ever does so. -/
theorem c6_used_flag_reset_by_undo :
    (getBlock (placeBlock sChecker []).heap 0).used = true ∧
    (getBlock (undo (placeBlock sChecker [])).heap 0).used = false := by
  decide

/-- C6, amended: `placeBlock` never resets a `used` flag — every block
marked used stays used across any placement (it only marks the placed
block used and possibly appends fresh blocks); `undo` is the one
operation that flips the last-placed block's flag back to false. -/
theorem c6_placeBlock_used_monotone (s : EngineState) (nb : List Block) (r : Nat)
    (h4 : r < s.heap.length) (h : (getBlock s.heap r).used = true) :
    (getBlock (placeBlock s nb).heap r).used = true := by
  cases hd : s.draggedBlock with
  | none =>
    rw [placeBlock_of_none s nb hd]
    exact h
  | some r' =>
    by_cases hu : (getBlock s.heap r').used = true
    · rw [placeBlock_of_used s nb r' hd hu]
      exact h
    · have hu' : (getBlock s.heap r').used = false := by
        simpa using hu
      by_cases hc : canPlaceBlockAt s.grid (getBlock s.heap r').shape s.cursorPos = true
      · rw [placeBlock_of_canPlace s nb r' hd hu' hc, commitPlacement_heap]
        have hget : (getBlock (s.heap.set r' { getBlock s.heap r' with used := true }) r).used
            = true := by
          by_cases hrr : r' = r
          · subst hrr
            rw [getBlock_set_self _ _ _ h4]
          · rw [getBlock_set_ne _ _ _ _ hrr]
            exact h
        split
        · rw [getBlock_append_left _ _ _ (by simpa using h4)]
          exact hget
        · exact hget
      · have hc' : canPlaceBlockAt s.grid (getBlock s.heap r').shape s.cursorPos = false := by
          simpa using hc
        rw [placeBlock_of_not_canPlace s nb r' hd hu' hc']
        exact h

/-- C6, witness: across a placement that consumes the last unused block
and refills the set, the previously used block at reference 0 stays
used. -/
theorem c6_placeBlock_used_monotone_witness :
    (getBlock (placeBlock sMixed [oneBlock, oneBlock, oneBlock]).heap 0).used = true :=
  c6_placeBlock_used_monotone sMixed [oneBlock, oneBlock, oneBlock] 0 (by decide) rfl

/-! ## Claim C3 -/

/-- The multiplier table exactly as the claim words it: `m` is 1, 3, 6,
10 for 1–4 simultaneous lines and 15 for 5 or more (spec-side
definition, to be compared with the code's `multiplier`). -/
def specMultiplier (n : Nat) : Nat :=
  if n = 1 then 1 else if n = 2 then 3 else if n = 3 then 6 else if n = 4 then 10 else 15

lemma multiplier_eq_specMultiplier (n : Nat) (h : 1 ≤ n) :
    multiplier n = specMultiplier n := by
  rcases n with _ | _ | _ | _ | _ | m
  · omega
  · rfl
  · rfl
  · rfl
  · rfl
  · show 15 = specMultiplier (m + 5)
    unfold specMultiplier
    rw [if_neg (by omega), if_neg (by omega), if_neg (by omega), if_neg (by omega)]

/-- C3: a successful placement that clears `n ≥ 1` lines adds exactly
`100 × m × level` to the score, with `m = specMultiplier n`
(1, 3, 6, 10 for 1–4 lines, 15 for 5 or more); a placement that clears
no lines leaves the score unchanged.  (`n` is the line count
`checkAndClearLines` detects on the post-commit grid.) -/
theorem c3_score_delta (s : EngineState) (nb : List Block) (r : Nat)
    (h1 : s.draggedBlock = some r)
    (h2 : (getBlock s.heap r).used = false)
    (h3 : canPlaceBlockAt s.grid (getBlock s.heap r).shape s.cursorPos = true) :
    (1 ≤ (checkAndClearLines (writeShape s.grid (getBlock s.heap r).shape s.cursorPos
        (getBlock s.heap r).colorIndex)).2 →
      (placeBlock s nb).score = s.score + BASE_SCORE *
        specMultiplier (checkAndClearLines (writeShape s.grid (getBlock s.heap r).shape
          s.cursorPos (getBlock s.heap r).colorIndex)).2 * s.level) ∧
    ((checkAndClearLines (writeShape s.grid (getBlock s.heap r).shape s.cursorPos
        (getBlock s.heap r).colorIndex)).2 = 0 →
      (placeBlock s nb).score = s.score) := by
  rw [placeBlock_of_canPlace s nb r h1 h2 h3]
  rw [commitPlacement_score]
  constructor
  · intro hn
    rw [if_pos (by omega), multiplier_eq_specMultiplier _ hn]
  · intro hn
    rw [hn]
    simp

/-- C3, witness: completing row 0 of `sAlmost` clears one line and adds
`100 × 1 × 1` to the score. -/
theorem c3_score_delta_witness :
    (placeBlock sAlmost []).score = sAlmost.score + BASE_SCORE * specMultiplier 1 * sAlmost.level := by
  have h := (c3_score_delta sAlmost [] 0 rfl (by decide) (by decide)).1 (by decide)
  have hn : (checkAndClearLines (writeShape sAlmost.grid (getBlock sAlmost.heap 0).shape
      sAlmost.cursorPos (getBlock sAlmost.heap 0).colorIndex)).2 = 1 := by decide
  rw [hn] at h
  exact h

/-! ## Claim C4 -/

/-- C4: `undo()` immediately after a successful `placeBlock` restores
`grid`, `score`, and `linesCleared` to their exact pre-commit values and
flips the placed block's `used` flag back to `false`; a second
consecutive `undo()` is a no-op. -/
theorem c4_undo_roundtrip (s : EngineState) (nb : List Block) (r : Nat)
    (h1 : s.draggedBlock = some r)
    (h2 : (getBlock s.heap r).used = false)
    (h3 : canPlaceBlockAt s.grid (getBlock s.heap r).shape s.cursorPos = true)
    (h4 : r < s.heap.length) :
    (undo (placeBlock s nb)).grid = s.grid ∧
    (undo (placeBlock s nb)).score = s.score ∧
    (undo (placeBlock s nb)).linesCleared = s.linesCleared ∧
    (getBlock (undo (placeBlock s nb)).heap r).used = false ∧
    undo (undo (placeBlock s nb)) = undo (placeBlock s nb) := by
  rw [placeBlock_of_canPlace s nb r h1 h2 h3]
  have hcu := commitPlacement_canUndo s r nb
  have hlp := commitPlacement_lastPlacement s r nb
  rw [undo_of_canUndo (commitPlacement s r nb) _ hcu hlp]
  have hlen : r < (commitPlacement s r nb).heap.length := by
    rw [commitPlacement_heap]
    split
    · rw [List.length_append, List.length_set]
      omega
    · rw [List.length_set]
      exact h4
  refine ⟨rfl, rfl, rfl, ?_, ?_⟩
  · show (getBlock ((commitPlacement s r nb).heap.set r
      { getBlock (commitPlacement s r nb).heap r with used := false }) r).used = false
    rw [getBlock_set_self _ _ _ hlen]
  · exact undo_of_not_canUndo _ rfl

/-- C4, witness: the round-trip at the concrete state `sAlmost`. -/
theorem c4_undo_roundtrip_witness :
    (undo (placeBlock sAlmost [])).grid = sAlmost.grid ∧
    (undo (placeBlock sAlmost [])).score = sAlmost.score ∧
    (undo (placeBlock sAlmost [])).linesCleared = sAlmost.linesCleared ∧
    (getBlock (undo (placeBlock sAlmost [])).heap 0).used = false ∧
    undo (undo (placeBlock sAlmost [])) = undo (placeBlock sAlmost []) :=
  c4_undo_roundtrip sAlmost [] 0 rfl (by decide) (by decide) (by decide)

/-! ## Claim C7 -/

/-- C7: `hasAnyValidMoves` returns true when every block of the 3-block
set is used; otherwise it returns true iff some unused block has at
least one anchor among the N² grid positions where it can legally be
placed, and false exactly when no unused block fits anywhere. -/
theorem c7_hasAnyValidMoves_iff (g : Grid) (blocks : List Block)
    (hlen : blocks.length = 3) :
    hasAnyValidMoves g blocks = true ↔
      ((∀ b ∈ blocks, b.used = true) ∨
       ∃ b ∈ blocks, b.used = false ∧
         ∃ y < GRID_SIZE, ∃ x < GRID_SIZE,
           canPlaceBlockAt g b.shape ⟨x, y⟩ = true) := by
  unfold hasAnyValidMoves
  by_cases hempty : (blocks.filter fun b => !b.used).isEmpty = true
  · simp only [hempty, if_true]
    have hall : ∀ b ∈ blocks, b.used = true := by
      rw [List.isEmpty_iff, List.filter_eq_nil_iff] at hempty
      intro b hb
      simpa using hempty b hb
    exact iff_of_true trivial (Or.inl hall)
  · have hempty' : (blocks.filter fun b => !b.used).isEmpty = false := by
      simpa using hempty
    simp only [hempty', Bool.false_eq_true, if_false]
    rw [List.any_eq_true]
    constructor
    · rintro ⟨b, hbmem, hb⟩
      rw [List.mem_filter] at hbmem
      rw [List.any_eq_true] at hb
      obtain ⟨y, hy, hxany⟩ := hb
      rw [List.any_eq_true] at hxany
      obtain ⟨x, hx, hcan⟩ := hxany
      exact Or.inr ⟨b, hbmem.1, by simpa using hbmem.2,
        y, List.mem_range.mp hy, x, List.mem_range.mp hx, hcan⟩
    · rintro (hall | ⟨b, hbmem, hbu, y, hy, x, hx, hcan⟩)
      · exfalso
        have hne : blocks.filter (fun b => !b.used) ≠ [] := by
          intro hnil
          rw [← List.isEmpty_iff] at hnil
          exact hempty hnil
        obtain ⟨b, hb⟩ := List.exists_mem_of_ne_nil _ hne
        rw [List.mem_filter] at hb
        have := hall b hb.1
        simp [this] at hb
      · exact ⟨b, List.mem_filter.mpr ⟨hbmem, by simp [hbu]⟩,
          List.any_eq_true.mpr ⟨y, List.mem_range.mpr hy,
            List.any_eq_true.mpr ⟨x, List.mem_range.mpr hx, hcan⟩⟩⟩

/-- C7, witness: on the empty grid, a concrete 3-block set with an
unused 1×1 block has a valid move. -/
theorem c7_hasAnyValidMoves_iff_witness :
    hasAnyValidMoves emptyGrid [oneBlock, plusBlock, usedBlock] = true :=
  (c7_hasAnyValidMoves_iff emptyGrid [oneBlock, plusBlock, usedBlock] (by decide)).mpr
    (Or.inr ⟨oneBlock, by decide, rfl, 0, by decide, 0, by decide, by decide⟩)

/-! ## Claim C8 -/

/-- C8: the placement-validity check succeeds iff every occupied shape
cell `(dx, dy)` maps to an absolute cell `(x + dx, y + dy)` inside the
N×N bounds that holds value 0 — for every grid, shape, and (possibly
negative) anchor; a shape partially overflowing the boundary is
rejected. -/
theorem c8_canPlace_iff (g : Grid) (shape : List (List Bool)) (p : Pos) :
    canPlaceBlockAt g shape p = true ↔
      ∀ dy < shape.length, ∀ dx < (shape.getD dy []).length,
        (shape.getD dy []).getD dx false = true →
          0 ≤ p.x + dx ∧ p.x + dx < (GRID_SIZE : Int) ∧
          0 ≤ p.y + dy ∧ p.y + dy < (GRID_SIZE : Int) ∧
          cell g (p.y + dy).toNat (p.x + dx).toNat = 0 := by
  unfold canPlaceBlockAt
  rw [List.all_eq_true]
  constructor
  · intro h dy hdy dx hdx hocc
    have h1 := h dy (List.mem_range.mpr hdy)
    rw [List.all_eq_true] at h1
    have h2 := h1 dx (List.mem_range.mpr hdx)
    rw [if_pos hocc] at h2
    simp only [Bool.and_eq_true, decide_eq_true_eq, beq_iff_eq] at h2
    exact ⟨h2.1.1.1.1, h2.1.1.1.2, h2.1.1.2, h2.1.2, h2.2⟩
  · intro h dy hdy
    rw [List.all_eq_true]
    intro dx hdx
    by_cases hocc : (shape.getD dy []).getD dx false = true
    · rw [if_pos hocc]
      have h5 := h dy (List.mem_range.mp hdy) dx (List.mem_range.mp hdx) hocc
      simp only [Bool.and_eq_true, decide_eq_true_eq, beq_iff_eq]
      exact ⟨⟨⟨⟨h5.1, h5.2.1⟩, h5.2.2.1⟩, h5.2.2.2.1⟩, h5.2.2.2.2⟩
    · rw [if_neg hocc]

/-! ## Claim C9 -/

lemma rowDetector_eq_decide (g : Grid) (hWF : WFGrid g) (y : Nat) (hy : y < GRID_SIZE) :
    ((g.getD y []).all fun c => c != 0) = decide (rowFull g y) := by
  by_cases h : rowFull g y
  · rw [decide_eq_true h, all_ne_zero_iff, hWF.2 y hy]
    exact h
  · rw [decide_eq_false h, Bool.eq_false_iff]
    intro hall
    apply h
    rw [all_ne_zero_iff, hWF.2 y hy] at hall
    exact hall

lemma colDetector_eq_decide (g : Grid) (hlen : g.length = GRID_SIZE) (x : Nat) :
    (g.all fun row => row.getD x 0 != 0) = decide (colFull g x) := by
  by_cases h : colFull g x
  · rw [decide_eq_true h]
    exact (col_all_iff g hlen x).mpr h
  · rw [decide_eq_false h, Bool.eq_false_iff]
    intro hall
    exact h ((col_all_iff g hlen x).mp hall)

/-- C9: `checkAndClearLines` detects full rows and columns entirely on
the pre-clear grid: the reported line count equals the number of full
rows plus the number of full columns of that grid, and every row and
column that was full at detection time is completely zeroed in the
result — clearing a column never prevents a detected row from being
counted and cleared (the intersection cell simply ends at 0). -/
theorem c9_simultaneous_detection (g : Grid) (hWF : WFGrid g) :
    (checkAndClearLines g).2 =
      ((List.range GRID_SIZE).countP fun y => decide (rowFull g y)) +
      ((List.range GRID_SIZE).countP fun x => decide (colFull g x)) ∧
    (∀ y < GRID_SIZE, rowFull g y → ∀ x < GRID_SIZE, cell (checkAndClearLines g).1 y x = 0) ∧
    (∀ x < GRID_SIZE, colFull g x → ∀ y < GRID_SIZE, cell (checkAndClearLines g).1 y x = 0) := by
  refine ⟨?_, ?_, ?_⟩
  · show (fullRows g).length + (fullCols g).length = _
    congr 1
    · rw [List.countP_eq_length_filter]
      unfold fullRows
      congr 1
      exact List.filter_congr fun y hy =>
        rowDetector_eq_decide g hWF y (List.mem_range.mp hy)
    · rw [List.countP_eq_length_filter]
      unfold fullCols
      congr 1
      exact List.filter_congr fun x _ => colDetector_eq_decide g hWF.1 x
  · intro y hy hr x hx
    rw [cell_checkAndClearLines]
    have hyR : y ∈ fullRows g := (mem_fullRows g hWF y).mpr ⟨hy, hr⟩
    by_cases hc : x ∈ fullCols g
    · rw [if_pos hc]
    · rw [if_neg hc, if_pos hyR]
  · intro x hx hc y hy
    rw [cell_checkAndClearLines, if_pos ((mem_fullCols g hWF.1 x).mpr ⟨hx, hc⟩)]

/-- C9, witness: at the grid whose row 0 and column 0 are both full,
both lines are counted from the pre-clear grid and both are cleared,
including away from the intersection. -/
theorem c9_simultaneous_detection_witness :
    ((checkAndClearLines crossGrid).2 =
      ((List.range GRID_SIZE).countP fun y => decide (rowFull crossGrid y)) +
      ((List.range GRID_SIZE).countP fun x => decide (colFull crossGrid x))) ∧
    cell (checkAndClearLines crossGrid).1 0 3 = 0 ∧
    cell (checkAndClearLines crossGrid).1 3 0 = 0 :=
  ⟨(c9_simultaneous_detection crossGrid (by decide)).1,
   (c9_simultaneous_detection crossGrid (by decide)).2.1 0 (by decide) (by decide) 3 (by decide),
   (c9_simultaneous_detection crossGrid (by decide)).2.2 0 (by decide) (by decide) 3 (by decide)⟩

/-! ## Claim C10 -/

/-- C10: immediately after any successful `placeBlock`, the grid
contains no fully-occupied row and no fully-occupied column: every line
full at detection time was emptied, and clearing (which only writes
zeros) cannot create a new full line. -/
theorem c10_no_full_lines_after_place (s : EngineState) (nb : List Block) (r : Nat)
    (hWF : WFGrid s.grid)
    (h1 : s.draggedBlock = some r)
    (h2 : (getBlock s.heap r).used = false)
    (h3 : canPlaceBlockAt s.grid (getBlock s.heap r).shape s.cursorPos = true) :
    (∀ y < GRID_SIZE, ¬ rowFull (placeBlock s nb).grid y) ∧
    (∀ x < GRID_SIZE, ¬ colFull (placeBlock s nb).grid x) := by
  rw [placeBlock_of_canPlace s nb r h1 h2 h3, commitPlacement_grid]
  have hWF1 : WFGrid (writeShape s.grid (getBlock s.heap r).shape s.cursorPos
      (getBlock s.heap r).colorIndex) :=
    WFGrid_of_sameDims (sameDims_writeShape s.grid _ _ _) hWF
  exact ⟨not_rowFull_checkAndClearLines _ hWF1, not_colFull_checkAndClearLines _ hWF1⟩

/-- C10, witness: after the row-completing placement on `sAlmost`,
row 0 and column 0 are not full. -/
theorem c10_no_full_lines_after_place_witness :
    ¬ rowFull (placeBlock sAlmost []).grid 0 ∧
    ¬ colFull (placeBlock sAlmost []).grid 0 :=
  ⟨(c10_no_full_lines_after_place sAlmost [] 0 (by decide) rfl (by decide) (by decide)).1
      0 (by decide),
   (c10_no_full_lines_after_place sAlmost [] 0 (by decide) rfl (by decide) (by decide)).2
      0 (by decide)⟩

end BlockWhacker
